import Mathlib

/-!
Verification development for the Kadena Ledger host-side driver
(`src/app.ts` and its type/constant declarations).

The TypeScript source is shallowly embedded below:

- JS strings are modelled as Lean `String`; `jsStrLen` is the JS
  `String.prototype.length` (UTF-16 code-unit count).
- Node `Buffer`s are modelled as `List Nat` with every element a byte value.
- The device/transport collaborator (`@zondax/ledger-js` `BaseApp`) is an
  external dependency; it is modelled as a `Device` record of oracles plus an
  explicit `Trace` of the packets dispatched to it, so that claims about what
  was (or was not) sent to the device become statements about the trace.
- JS mutation of the caller-supplied parameter record (the `p1.recipient_chainId = 0`
  assignments in the source) is modelled by returning the post-call state of the
  record alongside the result.
- Fallible paths (`throw new TypeError(...)`) are modelled with `Except String`.
-/

namespace KadenaSpec

/-! ## JS string primitives -/

/-- Number of UTF-16 code units a single code point occupies in a JS string. -/
def utf16Units (c : Char) : Nat :=
  if c.toNat < 0x10000 then 1 else 2

/-- JS `String.prototype.length`: the number of UTF-16 code units. -/
def jsStrLen (s : String) : Nat :=
  (s.data.map utf16Units).sum

/-- UTF-8 encoding of a single code point. -/
def utf8Char (c : Char) : List Nat :=
  let n := c.toNat
  if n < 0x80 then [n]
  else if n < 0x800 then [0xC0 + n / 64, 0x80 + n % 64]
  else if n < 0x10000 then [0xE0 + n / 4096, 0x80 + (n / 64) % 64, 0x80 + n % 64]
  else [0xF0 + n / 262144, 0x80 + (n / 4096) % 64, 0x80 + (n / 64) % 64, 0x80 + n % 64]

/-- UTF-8 encoding of a sequence of code points (`Buffer.from(str)`). -/
def utf8Encode (l : List Char) : List Nat :=
  l.flatMap utf8Char

/-- Is the code point plain ASCII? -/
def isAscii (c : Char) : Bool :=
  c.toNat < 0x80

/-! ## JS `Number(...)` model

`checkTransferTxParamsSanity` calls the global `isNaN` and `convertDecimal`
calls `Number(...)` / `Number.isInteger(...)` on numeric strings.  The numeric
value of a string is modelled exactly, as `mantissa * 10 ^ exponent`, rather
than as an IEEE double; the two agree on every decimal string whose value
round-trips through a double, which covers all field budgets of this driver. -/

inductive JsNum where
  | nan : JsNum
  | inf : JsNum
  | finite (mantissa : Int) (exp10 : Int) : JsNum
deriving DecidableEq, Repr

def isDigit (c : Char) : Bool :=
  '0' ≤ c && c ≤ '9'

def digitsVal (l : List Char) : Nat :=
  l.foldl (fun a c => a * 10 + (c.toNat - 48)) 0

def hexDigVal (c : Char) : Option Nat :=
  if '0' ≤ c && c ≤ '9' then some (c.toNat - 48)
  else if 'a' ≤ c && c ≤ 'f' then some (c.toNat - 87)
  else if 'A' ≤ c && c ≤ 'F' then some (c.toNat - 55)
  else none

/-- Digit value in a given radix (used for the `0x` / `0o` / `0b` literal forms). -/
def radixDigVal (radix : Nat) (c : Char) : Option Nat :=
  match hexDigVal c with
  | some v => if v < radix then some v else none
  | none => none

def parseRadix (radix : Nat) (l : List Char) : JsNum :=
  if l = [] then .nan
  else
    let vals := l.map (radixDigVal radix)
    if vals.all (·.isSome) then
      .finite (vals.foldl (fun a v => a * radix + (v.getD 0 : Nat)) (0 : Int)) 0
    else .nan

/-- Exponent suffix of a decimal literal: empty, or `e`/`E` followed by an
optionally signed digit string. -/
def parseExpPart : List Char → Option Int
  | [] => some 0
  | 'e' :: rest => parseSignedDigits rest
  | 'E' :: rest => parseSignedDigits rest
  | _ => none
where
  parseSignedDigits : List Char → Option Int
    | '+' :: rest => if rest ≠ [] && rest.all isDigit then some (digitsVal rest) else none
    | '-' :: rest => if rest ≠ [] && rest.all isDigit then some (-(digitsVal rest : Int)) else none
    | rest => if rest ≠ [] && rest.all isDigit then some (digitsVal rest) else none

/-- Unsigned decimal literal body: `digits [. digits] [exp]` or `. digits [exp]`.
Returns the mantissa (all digits) and the power-of-ten exponent. -/
def parseDecCore (l : List Char) : Option (Nat × Int) :=
  let p := l.span isDigit
  match p.2 with
  | '.' :: rest2 =>
    let q := rest2.span isDigit
    if p.1 = [] && q.1 = [] then none
    else match parseExpPart q.2 with
      | none => none
      | some e => some (digitsVal (p.1 ++ q.1), e - (q.1.length : Int))
  | rest =>
    if p.1 = [] then none
    else match parseExpPart rest with
      | none => none
      | some e => some (digitsVal p.1, e)

/-- JS whitespace for the purposes of `Number(...)` trimming. -/
def jsWhitespace (c : Char) : Bool :=
  c = ' ' || c = '\t' || c = '\n' || c = '\r' || c.toNat = 0x0b || c.toNat = 0x0c
    || c.toNat = 0xfeff || c.toNat = 0xa0

/-- Strip leading and trailing whitespace. -/
def trimChars (l : List Char) : List Char :=
  ((l.dropWhile jsWhitespace).reverse.dropWhile jsWhitespace).reverse

/-- The value `Number(s)` of a JS string (exact-decimal model, see above). -/
def jsNumber (s : String) : JsNum :=
  let l := trimChars s.data
  if l = [] then .finite 0 0
  else if l = "Infinity".data || l = "+Infinity".data || l = "-Infinity".data then .inf
  else
    match l with
    | '0' :: 'x' :: rest => parseRadix 16 rest
    | '0' :: 'X' :: rest => parseRadix 16 rest
    | '0' :: 'o' :: rest => parseRadix 8 rest
    | '0' :: 'O' :: rest => parseRadix 8 rest
    | '0' :: 'b' :: rest => parseRadix 2 rest
    | '0' :: 'B' :: rest => parseRadix 2 rest
    | '+' :: rest => match parseDecCore rest with
      | some me => .finite me.1 me.2
      | none => .nan
    | '-' :: rest => match parseDecCore rest with
      | some me => .finite (-(me.1 : Int)) me.2
      | none => .nan
    | _ => match parseDecCore l with
      | some me => .finite me.1 me.2
      | none => .nan

/-- JS `isNaN(s)` for a string argument. -/
def jsIsNaNStr (s : String) : Bool :=
  jsNumber s = JsNum.nan

/-- The source `isNaN_` helper applied to an optional string field:
`undefined` is not NaN. -/
def jsIsNaNOpt (o : Option String) : Bool :=
  match o with
  | none => false
  | some s => jsIsNaNStr s

/-- JS `Number.isInteger(Number(s))`. -/
def jsNumIsIntegerStr (s : String) : Bool :=
  match jsNumber s with
  | .finite m e => if 0 ≤ e then true else m % ((10 : Int) ^ e.natAbs) = 0
  | _ => false

/-! ## Source: `convertDecimal` (app.ts lines 468-478) -/

/-- Source `convertDecimal`: pass a string containing `.` through unchanged;
append `.0` when the string parses to an integral number; otherwise unchanged.
The `amount` parameter of the driver is a string, so `decimal.toString()` is
the identity. -/
def convertDecimal (decimal : String) : String :=
  let decimalStr := decimal
  if decimalStr.data.contains '.' then decimalStr
  else if jsNumIsIntegerStr decimalStr then decimalStr ++ ".0"
  else decimalStr

/-! ## Source: `textPayload` (app.ts lines 460-466)

`Buffer.alloc(1 + txt.length)` allocates a zero-filled buffer sized by the
UTF-16 length; `payload[0] = txt.length` stores the length modulo 256
(Uint8Array element coercion); `payload.write(txt, 1, "utf-8")` writes the
UTF-8 bytes of as many complete leading characters as fit in the remaining
space (Node `Buffer.write` never writes a partially encoded character and
stops at the first character that does not fit). -/

/-- Bytes actually stored by `Buffer.write` given the available space. -/
def bufWriteGo (space : Nat) : List Char → List Nat
  | [] => []
  | c :: rest =>
    let bs := utf8Char c
    if bs.length ≤ space then bs ++ bufWriteGo (space - bs.length) rest
    else []

/-- Source `textPayload`. -/
def textPayload (txt : String) : List Nat :=
  let n := jsStrLen txt
  let written := bufWriteGo n txt.data
  (n % 256) :: (written ++ List.replicate (n - written.length) 0)

/-! ## Source: the data model (`types.ts`) -/

/-- Source `TransferCrossChainTxParams` (= `TransferTxParams` plus
`recipient_chainId`).  The TS field `namespace` is spelled `nspace` because
`namespace` is a Lean keyword; the unused opaque `path` member is omitted.
`chainId`, `creationTime` and `recipient_chainId` are JS numbers used only via
`toString`; they are modelled as `Nat` (all call sites use non-negative
integers). -/
structure TransferCrossChainTxParams where
  nspace : Option String := none
  module : Option String := none
  recipient : String
  amount : String
  chainId : Nat
  network : String
  gasPrice : Option String := none
  gasLimit : Option String := none
  creationTime : Option Nat := none
  ttl : Option String := none
  nonce : Option String := none
  recipient_chainId : Nat
deriving DecidableEq, Repr

/-- Source `TransferTxType` enum values. -/
def TRANSFER : Nat := 0
def TRANSFER_CREATE : Nat := 1
def TRANSFER_CROSS_CHAIN : Nat := 2

/-- Source `maxLengths` table (`types.ts`), in object insertion order. -/
def maxLengths : List (String × Nat) :=
  [("recipient", 64), ("namespace", 16), ("module", 32), ("recipient_chainId", 2),
   ("network", 20), ("amount", 32), ("gasPrice", 20), ("gasLimit", 10),
   ("creationTime", 12), ("chainId", 2), ("nonce", 32), ("ttl", 20)]

/-- Source instruction codes (`KadenaApp._INS`). -/
def INS_GET_VERSION : Nat := 0x20
def INS_GET_ADDR : Nat := 0x21
def INS_SIGN : Nat := 0x22
def INS_SIGN_HASH : Nat := 0x23
def INS_SIGN_TRANSFER_TX : Nat := 0x24

/-- Source `chunkSize` parameter. -/
def CHUNK_SIZE : Nat := 250

/-- Source `PUBKEYLEN` constant. -/
def PUBKEYLEN : Nat := 32

/-! ## Source: `checkTransferTxParamsSanity` (app.ts lines 280-324) -/

/-- Strip a leading `k:` prefix (`params.recipient.startsWith("k:") ?
params.recipient.substring(2) : params.recipient`). -/
def stripK (s : String) : String :=
  match s.data with
  | 'k' :: ':' :: rest => String.mk rest
  | _ => s

def isHexChar (c : Char) : Bool :=
  (48 ≤ c.toNat && c.toNat ≤ 57) || (65 ≤ c.toNat && c.toNat ≤ 70)
    || (97 ≤ c.toNat && c.toNat ≤ 102)

/-- Do the first 64 characters exist and consist solely of hex digits? -/
def hexRunStart (l : List Char) : Bool :=
  (l.take 64).length = 64 && (l.take 64).all isHexChar

/-- The JS regex test `recipient.match(/[0-9A-Fa-f]{64}/g)`: does the string
contain 64 consecutive hexadecimal characters anywhere? -/
def hasHexRun64 : List Char → Bool
  | [] => false
  | c :: rest => hexRunStart (c :: rest) || hasHexRun64 rest

/-- The `(value || "").toString()` step of the max-length loop applied to a JS
number: `0` is falsy and becomes the empty string. -/
def jsNumFalsyStr (n : Nat) : String :=
  if n = 0 then "" else Nat.repr n

/-- The `(value || "").toString()` step applied to an optional JS number field. -/
def jsOptNumFalsyStr (o : Option Nat) : String :=
  match o with
  | none => ""
  | some n => jsNumFalsyStr n

/-- The max-length `for` loop of `checkTransferTxParamsSanity`, unrolled in the
insertion order of `maxLengths`.  The recipient has an exact-length
requirement; every other field must not exceed its budget.  String fields go
through `(value || "")`, which is the identity on strings (the empty string is
its own fallback); `undefined` optional fields become `""`; numeric fields use
`jsNumFalsyStr`. -/
def lengthChecks (recipient : String) (params : TransferCrossChainTxParams) :
    Except String Unit :=
  if jsStrLen recipient ≠ 64 then
    .error "recipient should be exactly 64 characters long"
  else if jsStrLen (params.nspace.getD "") > 16 then
    .error "namespace should be 16 characters or less"
  else if jsStrLen (params.module.getD "") > 32 then
    .error "module should be 32 characters or less"
  else if jsStrLen (jsNumFalsyStr params.recipient_chainId) > 2 then
    .error "recipient_chainId should be 2 characters or less"
  else if jsStrLen params.network > 20 then
    .error "network should be 20 characters or less"
  else if jsStrLen params.amount > 32 then
    .error "amount should be 32 characters or less"
  else if jsStrLen (params.gasPrice.getD "") > 20 then
    .error "gasPrice should be 20 characters or less"
  else if jsStrLen (params.gasLimit.getD "") > 10 then
    .error "gasLimit should be 10 characters or less"
  else if jsStrLen (jsOptNumFalsyStr params.creationTime) > 12 then
    .error "creationTime should be 12 characters or less"
  else if jsStrLen (jsNumFalsyStr params.chainId) > 2 then
    .error "chainId should be 2 characters or less"
  else if jsStrLen (params.nonce.getD "") > 32 then
    .error "nonce should be 32 characters or less"
  else if jsStrLen (params.ttl.getD "") > 20 then
    .error "ttl should be 20 characters or less"
  else
    .ok ()

/-- Source `checkTransferTxParamsSanity`.  The `isNaN_` test on `creationTime`
is omitted: the field is a JS number and `isNaN` holds of no `Nat`-modelled
number, so that branch is unreachable. -/
def checkTransferTxParamsSanity (params : TransferCrossChainTxParams) :
    Except String Unit :=
  let recipient := stripK params.recipient
  if ¬ hasHexRun64 recipient.data then
    .error "Recipient should be a hex encoded pubkey or \x27k:\x27 address"
  else
    let namespace_ := params.nspace.getD ""
    let module_ := params.module.getD ""
    if namespace_ ≠ "" && module_ = "" then
      .error "Along with \x27namespace\x27 \x27module\x27 need to be specified"
    else if jsIsNaNStr params.amount then .error "amount is non a number"
    else if jsIsNaNOpt params.gasPrice then .error "gasPrice is non a number"
    else if jsIsNaNOpt params.gasLimit then .error "gasLimit is non a number"
    else if jsIsNaNOpt params.ttl then .error "ttl is non a number"
    else lengthChecks recipient params

/-! ## The `blakejs` collaborator: BLAKE2b-256

`signTxInternal` hashes the command document with
`blake2bInit(32) / blake2bUpdate / blake2bFinal` from the external `blakejs`
package.  The algorithm (RFC 7693, unkeyed, 32-byte digest) is embedded here
directly; 64-bit words are `Nat` values kept below `2 ^ 64` explicitly. -/

def M64 : Nat := 2 ^ 64

def rotr64 (x n : Nat) : Nat :=
  ((x >>> n) ||| (x <<< (64 - n))) % M64

def blakeIV : List Nat :=
  [0x6a09e667f3bcc908, 0xbb67ae8584caa73b, 0x3c6ef372fe94f82b, 0xa54ff53a5f1d36f1,
   0x510e527fade682d1, 0x9b05688c2b3e6c1f, 0x1f83d9abfb41bd6b, 0x5be0cd19137e2179]

def blakeSigma : List (List Nat) :=
  [[0, 1, 2, 3, 4, 5, 6, 7, 8, 9, 10, 11, 12, 13, 14, 15],
   [14, 10, 4, 8, 9, 15, 13, 6, 1, 12, 0, 2, 11, 7, 5, 3],
   [11, 8, 12, 0, 5, 2, 15, 13, 10, 14, 3, 6, 7, 1, 9, 4],
   [7, 9, 3, 1, 13, 12, 11, 14, 2, 6, 5, 10, 4, 0, 15, 8],
   [9, 0, 5, 7, 2, 4, 10, 15, 14, 1, 11, 12, 6, 8, 3, 13],
   [2, 12, 6, 10, 0, 11, 8, 3, 4, 13, 7, 5, 15, 14, 1, 9],
   [12, 5, 1, 15, 14, 13, 4, 10, 0, 7, 6, 3, 9, 2, 8, 11],
   [13, 11, 7, 14, 12, 1, 3, 9, 5, 0, 15, 4, 8, 6, 2, 10],
   [6, 15, 14, 9, 11, 3, 0, 8, 12, 2, 13, 7, 1, 4, 10, 5],
   [10, 2, 8, 4, 7, 6, 1, 5, 15, 11, 9, 14, 3, 12, 13, 0],
   [0, 1, 2, 3, 4, 5, 6, 7, 8, 9, 10, 11, 12, 13, 14, 15],
   [14, 10, 4, 8, 9, 15, 13, 6, 1, 12, 0, 2, 11, 7, 5, 3]]

/-- The BLAKE2b mixing function G on the 16-word working vector. -/
def gMix (v : List Nat) (a b c d x y : Nat) : List Nat :=
  let va := (v.getD a 0 + v.getD b 0 + x) % M64
  let vd := rotr64 (Nat.xor (v.getD d 0) va) 32
  let vc := (v.getD c 0 + vd) % M64
  let vb := rotr64 (Nat.xor (v.getD b 0) vc) 24
  let va := (va + vb + y) % M64
  let vd := rotr64 (Nat.xor vd va) 16
  let vc := (vc + vd) % M64
  let vb := rotr64 (Nat.xor vb vc) 63
  ((((v.set a va).set b vb).set c vc).set d vd)

/-- One round of the compression function for message words `m` under a sigma
permutation row `s`. -/
def blakeRound (m : List Nat) (v : List Nat) (s : List Nat) : List Nat :=
  let mi := fun i => m.getD (s.getD i 0) 0
  let v := gMix v 0 4 8 12 (mi 0) (mi 1)
  let v := gMix v 1 5 9 13 (mi 2) (mi 3)
  let v := gMix v 2 6 10 14 (mi 4) (mi 5)
  let v := gMix v 3 7 11 15 (mi 6) (mi 7)
  let v := gMix v 0 5 10 15 (mi 8) (mi 9)
  let v := gMix v 1 6 11 12 (mi 10) (mi 11)
  let v := gMix v 2 7 8 13 (mi 12) (mi 13)
  let v := gMix v 3 4 9 14 (mi 14) (mi 15)
  v

/-- Little-endian word value of a byte list. -/
def leWord (bs : List Nat) : Nat :=
  bs.foldr (fun b acc => acc * 256 + b) 0

/-- Split a 128-byte block into its 16 little-endian 64-bit words. -/
def toWords16 (block : List Nat) : List Nat :=
  (List.range 16).map (fun i => leWord ((block.drop (8 * i)).take 8))

/-- The BLAKE2b compression function F. -/
def blakeCompress (h : List Nat) (m : List Nat) (t : Nat) (last : Bool) : List Nat :=
  let v0 := h ++ blakeIV
  let v1 := v0.set 12 (Nat.xor (v0.getD 12 0) (t % M64))
  let v2 := v1.set 13 (Nat.xor (v1.getD 13 0) ((t / M64) % M64))
  let v3 := if last then v2.set 14 (Nat.xor (v2.getD 14 0) (M64 - 1)) else v2
  let v := blakeSigma.foldl (fun v s => blakeRound m v s) v3
  (List.range 8).map (fun i => Nat.xor (h.getD i 0) (Nat.xor (v.getD i 0) (v.getD (i + 8) 0)))

/-- Split a list into chunks of `n` elements (`n ≥ 1`); structural recursion on
an explicit length fuel so that the kernel can evaluate it. -/
def chunkListFuel (n : Nat) : Nat → List α → List (List α)
  | 0, _ => []
  | _, [] => []
  | fuel + 1, x :: xs => (x :: xs.take (n - 1)) :: chunkListFuel n fuel (xs.drop (n - 1))

def chunkList (n : Nat) (l : List α) : List (List α) :=
  chunkListFuel n l.length l

/-- Zero-pad a partial final block to 128 bytes. -/
def padBlock (b : List Nat) : List Nat :=
  b ++ List.replicate (128 - b.length) 0

/-- Drive the compression function over the message blocks; `compressed` counts
the bytes consumed by earlier (full) blocks. -/
def blakeGo (h : List Nat) (compressed : Nat) : List (List Nat) → List Nat
  | [] => h
  | [b] => blakeCompress h (toWords16 (padBlock b)) (compressed + b.length) true
  | b :: b2 :: rest =>
    blakeGo (blakeCompress h (toWords16 b) (compressed + 128) false) (compressed + 128) (b2 :: rest)

/-- The eight little-endian bytes of a 64-bit word. -/
def leBytes8 (w : Nat) : List Nat :=
  (List.range 8).map (fun i => (w >>> (8 * i)) % 256)

/-- BLAKE2b with a 32-byte digest and no key, as used by the source
(`blake2bInit(32)`): parameter block XOR `0x01010000 ^ outlen` on `h[0]`. -/
def blake2b256 (msg : List Nat) : List Nat :=
  let h0 := [Nat.xor 0x6a09e667f3bcc908 0x01010020] ++ blakeIV.drop 1
  let blocks := if msg.isEmpty then [[]] else chunkList 128 msg
  let hFinal := blakeGo h0 0 blocks
  (hFinal.take 4).flatMap leBytes8

/-! ## Base64 and the URL-safe transaction identifier -/

/-- The standard base64 alphabet. -/
def b64Table : List Char :=
  "ABCDEFGHIJKLMNOPQRSTUVWXYZabcdefghijklmnopqrstuvwxyz0123456789+/".data

def b64Char (n : Nat) : Char :=
  b64Table.getD (n % 64) 'A'

/-- `Buffer.prototype.toString("base64")`: standard base64 with padding. -/
def base64Chars : List Nat → List Char
  | [] => []
  | [a] => [b64Char (a / 4), b64Char ((a % 4) * 16), '=', '=']
  | [a, b] => [b64Char (a / 4), b64Char ((a % 4) * 16 + b / 16), b64Char ((b % 16) * 4), '=']
  | a :: b :: c :: rest =>
    b64Char (a / 4) :: b64Char ((a % 4) * 16 + b / 16) ::
      b64Char ((b % 16) * 4 + c / 64) :: b64Char (c % 64) :: base64Chars rest

/-- The chained `.replace(/\+/g, "-").replace(/\x2f/g, "_")` of the source. -/
def b64UrlReplace (c : Char) : Char :=
  if c = '+' then '-' else if c = '/' then '_' else c

/-- Source hash derivation (app.ts lines 259-268): BLAKE2b-256 over the UTF-8
bytes of the command document, base64, `+` to `-`, `/` to `_`, `=` removed. -/
def deriveHash (json : String) : String :=
  let jsonBuff := utf8Encode json.data
  let hashBytes := blake2b256 jsonBuff
  String.mk (((base64Chars hashBytes).map b64UrlReplace).filter (fun c => c ≠ '='))

/-- Characters of the URL-safe base64 alphabet. -/
def isUrlSafeB64 (c : Char) : Bool :=
  ('A' ≤ c && c ≤ 'Z') || ('a' ≤ c && c ≤ 'z') || ('0' ≤ c && c ≤ '9') || c = '-' || c = '_'

/-! ## Buffer decoders used by `signHash` -/

/-- `Buffer.from(s, "hex")`: consume hex digit pairs, stopping at the first
pair containing a non-hex character (Node truncates there) and ignoring a
trailing lone digit. -/
def hexDecodeGo : List Char → List Nat
  | c1 :: c2 :: rest =>
    match hexDigVal c1, hexDigVal c2 with
    | some hi, some lo => (hi * 16 + lo) :: hexDecodeGo rest
    | _, _ => []
  | _ => []

def hexDecodeJs (s : String) : List Nat :=
  hexDecodeGo s.data

/-- Sextet value of a base64 character; Node accepts both the standard and the
URL-safe alphabet. -/
def b64Val (c : Char) : Option Nat :=
  if 'A' ≤ c && c ≤ 'Z' then some (c.toNat - 65)
  else if 'a' ≤ c && c ≤ 'z' then some (c.toNat - 71)
  else if '0' ≤ c && c ≤ '9' then some (c.toNat + 4)
  else if c = '+' || c = '-' then some 62
  else if c = '/' || c = '_' then some 63
  else none

/-- Node forgiving base64 scan: non-alphabet characters are skipped and `=`
ends the data. -/
def b64Clean : List Char → List Nat
  | [] => []
  | c :: rest =>
    if c = '=' then []
    else match b64Val c with
      | some v => v :: b64Clean rest
      | none => b64Clean rest

/-- Regroup base64 sextets into bytes; a trailing group of 2 or 3 sextets
contributes 1 or 2 bytes, a lone trailing sextet contributes nothing. -/
def b64Group : List Nat → List Nat
  | a :: b :: c :: d :: rest =>
    (a * 4 + b / 16) :: ((b % 16) * 16 + c / 4) :: ((c % 4) * 64 + d) :: b64Group rest
  | [a, b] => [a * 4 + b / 16]
  | [a, b, c] => [a * 4 + b / 16, (b % 16) * 16 + c / 4]
  | _ => []

/-- `Buffer.from(s, "base64")`. -/
def base64DecodeJs (s : String) : List Nat :=
  b64Group (b64Clean s.data)

/-- Lowercase hex rendering (`Buffer.prototype.toString("hex")`). -/
def hexDigitChar (n : Nat) : Char :=
  "0123456789abcdef".data.getD n '0'

def toHexStr (bs : List Nat) : String :=
  String.mk (bs.flatMap (fun b => [hexDigitChar (b / 16 % 16), hexDigitChar (b % 256 % 16)]))

/-! ## The device/transport collaborator

The `@zondax/ledger-js` `BaseApp` (`prepareChunks`, `signSendChunk`,
`transport.send`) is an external collaborator.  Its request/response behaviour
is a parameter (`Device`); the packets this driver hands to it are recorded in
an explicit `Trace`. -/

/-- One observable interaction with the transport collaborator. -/
inductive Event where
  | chunkSent (ins idx total : Nat) (data : List Nat) : Event
  | addrRequested : Event
deriving DecidableEq, Repr

abbrev Trace := List Event

/-- The transport/device oracle.  `sendChunk ins idx total data` models
`signSendChunk`; an `Except.error` models a thrown device/transport error.
`getAddress` models the `GET_ADDR` exchange with its response already split by
the response decoder into (pubkey bytes, address text). -/
structure Device where
  sendChunk : Nat → Nat → Nat → List Nat → Except String (List Nat)
  getAddress : Except String (List Nat × String)

/-- Modelled from the spec (the external ledger-js collaborator): the
serialized path descriptor is the first packet on its own, followed by the
payload split into `CHUNK_SIZE`-byte packets. -/
def prepareChunks (pathBytes payload : List Nat) : List (List Nat) :=
  pathBytes :: chunkList CHUNK_SIZE payload

/-- The chunk-dispatch loop shared by `sign`, `signHash` and `signTxInternal`
(app.ts lines 94-108, 132-146, 235-249): the first chunk is sent with index 1,
each later chunk with index `1 + i`, every call is told the same `total`; the
response of the latest chunk replaces the previous one and an error stops the
loop.  Returns the final response together with the dispatch trace. -/
def sendChunksGo (dev : Device) (ins total : Nat) (idx : Nat) (prev : List Nat) :
    List (List Nat) → Except String (List Nat) × Trace
  | [] => (.ok prev, [])
  | c :: rest =>
    match dev.sendChunk ins idx total c with
    | .error e => (.error e, [.chunkSent ins idx total c])
    | .ok r =>
      let p := sendChunksGo dev ins total (idx + 1) r rest
      (p.1, .chunkSent ins idx total c :: p.2)

/-- Dispatch all chunks starting from index 1 with `total = chunks.length`.
Call sites always pass a non-empty chunk list (`prepareChunks` output starts
with the path packet). -/
def signSendAllChunks (dev : Device) (ins : Nat) (chunks : List (List Nat)) :
    Except String (List Nat) × Trace :=
  sendChunksGo dev ins chunks.length 1 [] chunks

/-- Source `ResponseSign`. -/
structure ResponseSign where
  signature : List Nat
deriving DecidableEq, Repr

/-- Source `ResponseSignTransfer`. -/
structure ResponseSignTransfer where
  signature : List Nat
  cmd : String
  hash : String
deriving DecidableEq, Repr

/-! ## Source: `sign` (app.ts lines 91-115) -/

def sign (dev : Device) (pathBytes : List Nat) (blob : List Nat) :
    Except String ResponseSign × Trace :=
  let chunks := prepareChunks pathBytes blob
  let p := signSendAllChunks dev INS_SIGN chunks
  (p.1.map (fun sig => { signature := sig }), p.2)

/-! ## Source: `signHash` (app.ts lines 117-154) -/

/-- The `hash` argument: a JS string, or a `Buffer` / `Uint8Array` (both are
copied verbatim by `Buffer.from`). -/
inductive HashInput where
  | str (s : String) : HashInput
  | bytes (b : List Nat) : HashInput
deriving DecidableEq, Repr

/-- The decoding step of `signHash`: a string of UTF-16 length exactly 64 is
hex-decoded, any other string is base64-decoded, raw bytes are used unchanged. -/
def rawHashOf : HashInput → List Nat
  | .str s => if jsStrLen s = 64 then hexDecodeJs s else base64DecodeJs s
  | .bytes b => b

def signHash (dev : Device) (pathBytes : List Nat) (h : HashInput) :
    Except String ResponseSign × Trace :=
  let rawHash := rawHashOf h
  if rawHash.length ≠ 32 then (.error "Hash is not 32 bytes", [])
  else
    let chunks := prepareChunks pathBytes rawHash
    let p := signSendAllChunks dev INS_SIGN_HASH chunks
    (p.1.map (fun sig => { signature := sig }), p.2)

/-! ## Source: `buildTransferJson` (app.ts lines 326-457)

The builder reads the RAW caller parameters: `params.amount`,
`params.gasPrice`, `params.gasLimit`, `params.ttl` and `params.nonce` are
concatenated without the defaulting/normalization that `signTxInternal`
applied to the device payload; a JS `undefined` optional concatenates as the
literal text `undefined`, modelled by `jsConcat`. -/

/-- JS string concatenation of a possibly-`undefined` value. -/
def jsConcat (o : Option String) : String :=
  o.getD "undefined"

def buildTransferJson (params : TransferCrossChainTxParams) (txType : Nat)
    (pubkey : String) (creationTime : Nat) : String :=
  let recipient := stripK params.recipient
  let namespace_ := params.nspace.getD ""
  let module_ := params.module.getD ""
  let head := "\x7b\"networkId\":\"" ++ params.network ++ "\""
  let body :=
    if txType = 0 then
      ",\"payload\":\x7b\"exec\":\x7b\"data\":\x7b\x7d,\"code\":\""
      ++ (if namespace_ = "" then "(coin.transfer"
          else "(" ++ namespace_ ++ "." ++ module_ ++ ".transfer")
      ++ " \\\"k:" ++ pubkey ++ "\\\""
      ++ " \\\"k:" ++ recipient ++ "\\\""
      ++ " " ++ params.amount ++ ")\"\x7d\x7d"
      ++ ",\"signers\":[\x7b\"pubKey\":\"" ++ pubkey ++ "\""
      ++ ",\"clist\":[\x7b\"args\":[\"k:" ++ pubkey ++ "\",\"k:" ++ recipient
        ++ "\"," ++ params.amount ++ "]"
      ++ (if namespace_ = "" then
            ",\"name\":\"coin.TRANSFER\"\x7d,\x7b\"args\":[],\"name\":\"coin.GAS\"\x7d]\x7d]"
          else
            ",\"name\":\"" ++ namespace_ ++ "." ++ module_
            ++ ".TRANSFER\"\x7d,\x7b\"args\":[],\"name\":\"coin.GAS\"\x7d]\x7d]")
    else if txType = 1 then
      ",\"payload\":\x7b\"exec\":\x7b\"data\":\x7b"
      ++ "\"ks\":\x7b\"pred\":\"keys-all\",\"keys\":[\"" ++ recipient ++ "\"]\x7d"
      ++ "\x7d,\"code\":\""
      ++ (if namespace_ = "" then "(coin.transfer-create"
          else "(" ++ namespace_ ++ "." ++ module_ ++ ".transfer-create")
      ++ " \\\"k:" ++ pubkey ++ "\\\""
      ++ " \\\"k:" ++ recipient ++ "\\\""
      ++ " (read-keyset \\\"ks\\\")"
      ++ " " ++ params.amount ++ ")\"\x7d\x7d"
      ++ ",\"signers\":[\x7b\"pubKey\":\"" ++ pubkey ++ "\""
      ++ ",\"clist\":[\x7b\"args\":[\"k:" ++ pubkey ++ "\",\"k:" ++ recipient
        ++ "\"," ++ params.amount ++ "]"
      ++ (if namespace_ = "" then
            ",\"name\":\"coin.TRANSFER\"\x7d,\x7b\"args\":[],\"name\":\"coin.GAS\"\x7d]\x7d]"
          else
            ",\"name\":\"" ++ namespace_ ++ "." ++ module_
            ++ ".TRANSFER\"\x7d,\x7b\"args\":[],\"name\":\"coin.GAS\"\x7d]\x7d]")
    else
      ",\"payload\":\x7b\"exec\":\x7b\"data\":\x7b"
      ++ "\"ks\":\x7b\"pred\":\"keys-all\",\"keys\":[\"" ++ recipient ++ "\"]\x7d"
      ++ "\x7d,\"code\":\""
      ++ (if namespace_ = "" then "(coin.transfer-crosschain"
          else "(" ++ namespace_ ++ "." ++ module_ ++ ".transfer-crosschain")
      ++ " \\\"k:" ++ pubkey ++ "\\\""
      ++ " \\\"k:" ++ recipient ++ "\\\""
      ++ " (read-keyset \\\"ks\\\")"
      ++ " \\\"" ++ Nat.repr params.recipient_chainId ++ "\\\""
      ++ " " ++ params.amount ++ ")\"\x7d\x7d"
      ++ ",\"signers\":[\x7b\"pubKey\":\"" ++ pubkey ++ "\""
      ++ ",\"clist\":[\x7b\"args\":[\"k:" ++ pubkey ++ "\",\"k:" ++ recipient
        ++ "\"," ++ params.amount ++ ",\"" ++ Nat.repr params.recipient_chainId ++ "\"]"
      ++ (if namespace_ = "" then
            ",\"name\":\"coin.TRANSFER_XCHAIN\"\x7d,\x7b\"args\":[],\"name\":\"coin.GAS\"\x7d]\x7d]"
          else
            ",\"name\":\"" ++ namespace_ ++ "." ++ module_
            ++ ".TRANSFER_XCHAIN\"\x7d,\x7b\"args\":[],\"name\":\"coin.GAS\"\x7d]\x7d]")
  let meta :=
    ",\"meta\":\x7b\"creationTime\":" ++ Nat.repr creationTime
    ++ ",\"ttl\":" ++ jsConcat params.ttl
    ++ ",\"gasLimit\":" ++ jsConcat params.gasLimit
    ++ ",\"chainId\":\"" ++ Nat.repr params.chainId ++ "\""
    ++ ",\"gasPrice\":" ++ jsConcat params.gasPrice
    ++ ",\"sender\":\"k:" ++ pubkey
    ++ "\"\x7d,\"nonce\":\"" ++ jsConcat params.nonce ++ "\"\x7d"
  head ++ body ++ meta

/-! ## Source: `signTxInternal` (app.ts lines 189-278) -/

/-- The binary payload assembled by `signTxInternal` (lines 199-231): the
1-byte type tag followed by the normalized/defaulted fields, each encoded with
`textPayload`, in the fixed firmware order.  `now` models
`Math.floor(Date.now() / 1000)`. -/
def payloadOf (now : Nat) (params : TransferCrossChainTxParams) (txType : Nat) :
    List Nat :=
  let recipient := stripK params.recipient
  let namespace_ := params.nspace.getD ""
  let module_ := params.module.getD ""
  let amount := convertDecimal params.amount
  let gasPrice := params.gasPrice.getD "1.0e-6"
  let gasLimit := params.gasLimit.getD "2300"
  let creationTime := params.creationTime.getD now
  let ttl := params.ttl.getD "600"
  let nonce := params.nonce.getD ""
  [txType % 256]
  ++ textPayload recipient
  ++ textPayload (Nat.repr params.recipient_chainId)
  ++ textPayload params.network
  ++ textPayload amount
  ++ textPayload namespace_
  ++ textPayload module_
  ++ textPayload gasPrice
  ++ textPayload gasLimit
  ++ textPayload (Nat.repr creationTime)
  ++ textPayload (Nat.repr params.chainId)
  ++ textPayload nonce
  ++ textPayload ttl

def signTxInternal (dev : Device) (pathBytes : List Nat) (now : Nat)
    (params : TransferCrossChainTxParams) (txType : Nat) :
    Except String ResponseSignTransfer × Trace :=
  match checkTransferTxParamsSanity params with
  | .error e => (.error e, [])
  | .ok _ =>
    let payload := payloadOf now params txType
    let chunks := prepareChunks pathBytes payload
    let p := signSendAllChunks dev INS_SIGN_TRANSFER_TX chunks
    match p.1 with
    | .error e => (.error e, p.2)
    | .ok sig =>
      match dev.getAddress with
      | .error e => (.error e, p.2 ++ [.addrRequested])
      | .ok pk =>
        let creationTime := params.creationTime.getD now
        let json := buildTransferJson params txType (toHexStr pk.1) creationTime
        let hash := deriveHash json
        (.ok { signature := sig, cmd := json, hash := hash }, p.2 ++ [.addrRequested])

/-! ## Source: the three public transfer entry points (app.ts lines 156-187)

`signTransferTx` and `signTransferCreateTx` perform
`p1.recipient_chainId = 0` on a CAST of the caller record, mutating the
caller-supplied object; the post-call state of that record is returned as the
second component. -/

def signTransferTx (dev : Device) (pathBytes : List Nat) (now : Nat)
    (params : TransferCrossChainTxParams) :
    (Except String ResponseSignTransfer × Trace) × TransferCrossChainTxParams :=
  let p1 := { params with recipient_chainId := 0 }
  (signTxInternal dev pathBytes now p1 TRANSFER, p1)

def signTransferCreateTx (dev : Device) (pathBytes : List Nat) (now : Nat)
    (params : TransferCrossChainTxParams) :
    (Except String ResponseSignTransfer × Trace) × TransferCrossChainTxParams :=
  let p1 := { params with recipient_chainId := 0 }
  (signTxInternal dev pathBytes now p1 TRANSFER_CREATE, p1)

def signTransferCrossChainTx (dev : Device) (pathBytes : List Nat) (now : Nat)
    (params : TransferCrossChainTxParams) :
    (Except String ResponseSignTransfer × Trace) × TransferCrossChainTxParams :=
  if params.chainId = params.recipient_chainId then
    ((.error "Recipient chainId is same as sender\x27s in a cross-chain transfer", []),
     params)
  else
    (signTxInternal dev pathBytes now params TRANSFER_CROSS_CHAIN, params)

/-! ## Helper definitions for the statements below -/

/-- The chunk payloads of a trace, in dispatch order. -/
def chunkDatas (tr : Trace) : List (List Nat) :=
  tr.filterMap (fun e => match e with
    | .chunkSent _ _ _ d => some d
    | .addrRequested => none)

/-- The expected trace of dispatching `cs` with consecutive indices from `idx`. -/
def chunkEvents (ins total idx : Nat) : List (List Nat) → Trace
  | [] => []
  | c :: rest => .chunkSent ins idx total c :: chunkEvents ins total (idx + 1) rest

/-- A device that accepts every chunk with response `resp` and answers the
address request with `addr`. -/
def devAccept (resp : List Nat) (addr : List Nat × String) : Device :=
  { sendChunk := fun _ _ _ _ => .ok resp, getAddress := .ok addr }

/-- Does `needle` occur at the head of `hay`? -/
def headMatches : List Char → List Char → Bool
  | [], _ => true
  | _ :: _, [] => false
  | a :: as, b :: bs => a = b && headMatches as bs

/-- Does `needle` occur as a contiguous run anywhere in `hay`? -/
def containsSeq (needle : List Char) (hay : List Char) : Bool :=
  match hay with
  | [] => needle.isEmpty
  | _ :: rest => headMatches needle hay || containsSeq needle rest

/-- All checks of `checkTransferTxParamsSanity` other than the two
recipient-specific ones (the hex-run regex and the exact-length rule), in the
order the source performs them. -/
def otherChecksOk (params : TransferCrossChainTxParams) : Bool :=
  (params.nspace.getD "" = "" || params.module.getD "" ≠ "") &&
  !jsIsNaNStr params.amount &&
  !jsIsNaNOpt params.gasPrice &&
  !jsIsNaNOpt params.gasLimit &&
  !jsIsNaNOpt params.ttl &&
  jsStrLen (params.nspace.getD "") ≤ 16 &&
  jsStrLen (params.module.getD "") ≤ 32 &&
  jsStrLen (jsNumFalsyStr params.recipient_chainId) ≤ 2 &&
  jsStrLen params.network ≤ 20 &&
  jsStrLen params.amount ≤ 32 &&
  jsStrLen (params.gasPrice.getD "") ≤ 20 &&
  jsStrLen (params.gasLimit.getD "") ≤ 10 &&
  jsStrLen (jsOptNumFalsyStr params.creationTime) ≤ 12 &&
  jsStrLen (jsNumFalsyStr params.chainId) ≤ 2 &&
  jsStrLen (params.nonce.getD "") ≤ 32 &&
  jsStrLen (params.ttl.getD "") ≤ 20

/-! ## Concrete inputs used by witnesses and counterexamples -/

/-- A valid 64-hex-character recipient. -/
def recipientEx : String := String.mk (List.replicate 64 'a')

/-- A transfer intent with amount `"5"` and gasPrice/gasLimit/ttl/nonce left
to their defaults; `recipient_chainId` is 7 before the call. -/
def paramsEx : TransferCrossChainTxParams :=
  { recipient := recipientEx, amount := "5", chainId := 0, network := "testnet",
    creationTime := some 1234, recipient_chainId := 7 }

/-- An always-accepting device with a fixed 32-byte public key. -/
def devEx : Device := devAccept [9, 9] (List.replicate 32 0xab, "k:pubkey")

/-- The hex rendering of the example public key. -/
def pubkeyHexEx : String := toHexStr (List.replicate 32 0xab)

/-- The command document the driver returns for `paramsEx` under `devEx`. -/
def docEx : String :=
  buildTransferJson { paramsEx with recipient_chainId := 0 } TRANSFER pubkeyHexEx 1234

/-- A one-character non-ASCII text (U+00E9). -/
def eAcute : String := "é"

/-- Cross-chain params whose recipient chain equals the sender chain. -/
def paramsSameChain : TransferCrossChainTxParams :=
  { recipient := recipientEx, amount := "5", chainId := 0, network := "testnet",
    recipient_chainId := 0 }

/-- A 64-character hex string presented to `signHash`. -/
def hash64Ex : String := String.mk (List.replicate 64 'b')

/-- Decidable equality for `Except`, used to evaluate validator results on
concrete inputs. -/
instance {ε α : Type} [DecidableEq ε] [DecidableEq α] : DecidableEq (Except ε α) := fun a b =>
  match a, b with
  | .ok x, .ok y =>
    if h : x = y then .isTrue (h ▸ rfl) else .isFalse (fun hc => h (Except.ok.inj hc))
  | .error x, .error y =>
    if h : x = y then .isTrue (h ▸ rfl) else .isFalse (fun hc => h (Except.error.inj hc))
  | .ok _, .error _ => .isFalse (fun hc => Except.noConfusion hc)
  | .error _, .ok _ => .isFalse (fun hc => Except.noConfusion hc)

/-! # Theorems -/

/-! ## Chunk-loop lemmas -/

theorem sendChunksGo_trace (dev : Device) (ins total : Nat) :
    ∀ (cs : List (List Nat)) (idx : Nat) (prev : List Nat),
      (sendChunksGo dev ins total idx prev cs).2
          = chunkEvents ins total idx (cs.take (sendChunksGo dev ins total idx prev cs).2.length)
        ∧ (sendChunksGo dev ins total idx prev cs).2.length ≤ cs.length
        ∧ (cs ≠ [] → 1 ≤ (sendChunksGo dev ins total idx prev cs).2.length) := by
  intro cs
  induction cs with
  | nil => intro idx prev; simp [sendChunksGo, chunkEvents]
  | cons c rest ih =>
    intro idx prev
    simp only [sendChunksGo]
    cases hsc : dev.sendChunk ins idx total c with
    | error e => simp [chunkEvents]
    | ok r =>
      obtain ⟨h1, h2, _⟩ := ih (idx + 1) r
      refine ⟨?_, by simpa using h2, fun _ => by simp⟩
      simp only [List.length_cons, List.take_succ_cons, chunkEvents, List.cons.injEq, true_and]
      exact h1

theorem sendChunksGo_ok (dev : Device) (ins total : Nat) :
    ∀ (cs : List (List Nat)) (idx : Nat) (prev : List Nat) (r : List Nat),
      (sendChunksGo dev ins total idx prev cs).1 = .ok r →
        (sendChunksGo dev ins total idx prev cs).2.length = cs.length
        ∧ (cs = [] → r = prev)
        ∧ (∀ h : cs ≠ [],
            dev.sendChunk ins (idx + cs.length - 1) total (cs.getLast h) = .ok r) := by
  intro cs
  induction cs with
  | nil =>
    intro idx prev r hr
    simp [sendChunksGo] at hr
    simp [sendChunksGo, hr]
  | cons c rest ih =>
    intro idx prev r hr
    simp only [sendChunksGo] at hr ⊢
    cases hsc : dev.sendChunk ins idx total c with
    | error e => rw [hsc] at hr; simp at hr
    | ok r0 =>
      rw [hsc] at hr
      simp only at hr
      cases rest with
      | nil =>
        have hr0 : r0 = r := by simpa [sendChunksGo] using hr
        subst hr0
        refine ⟨by simp [sendChunksGo], by simp, fun _ => ?_⟩
        simpa using hsc
      | cons c2 rest2 =>
        obtain ⟨g1, _, g3⟩ := ih (idx + 1) r0 r hr
        refine ⟨by simp [g1], by simp, fun _ => ?_⟩
        have hlast := g3 (by simp)
        have harith : idx + 1 + (c2 :: rest2).length - 1
            = idx + (c :: c2 :: rest2).length - 1 := by simp; omega
        rw [harith] at hlast
        simpa [List.getLast] using hlast

theorem sendChunksGo_err (dev : Device) (ins total : Nat) :
    ∀ (cs : List (List Nat)) (idx : Nat) (prev : List Nat) (e : String),
      (sendChunksGo dev ins total idx prev cs).1 = .error e →
        ∃ k, k < cs.length
          ∧ (sendChunksGo dev ins total idx prev cs).2.length = k + 1
          ∧ dev.sendChunk ins (idx + k) total (cs.getD k []) = .error e := by
  intro cs
  induction cs with
  | nil => intro idx prev e hr; simp [sendChunksGo] at hr
  | cons c rest ih =>
    intro idx prev e hr
    simp only [sendChunksGo] at hr ⊢
    cases hsc : dev.sendChunk ins idx total c with
    | error e0 =>
      rw [hsc] at hr
      simp only [Except.error.injEq] at hr
      subst hr
      exact ⟨0, by simp, by simp, by simpa using hsc⟩
    | ok r0 =>
      rw [hsc] at hr
      simp only at hr
      obtain ⟨k, hk1, hk2, hk3⟩ := ih (idx + 1) r0 e hr
      refine ⟨k + 1, by simpa using Nat.succ_lt_succ hk1, by simp [hk2], ?_⟩
      have harith : idx + (k + 1) = idx + 1 + k := by omega
      rw [harith]
      simpa [List.getD_cons_succ, List.getD] using hk3

theorem sendChunksGo_accept (resp : List Nat) (addr : List Nat × String) (ins total : Nat) :
    ∀ (cs : List (List Nat)) (idx : Nat) (prev : List Nat),
      sendChunksGo (devAccept resp addr) ins total idx prev cs
        = (.ok (if cs.isEmpty then prev else resp), chunkEvents ins total idx cs) := by
  intro cs
  induction cs with
  | nil => intro idx prev; simp [sendChunksGo, chunkEvents]
  | cons c rest ih =>
    intro idx prev
    have hdev : ∀ a b c0 d, (devAccept resp addr).sendChunk a b c0 d = Except.ok resp :=
      fun _ _ _ _ => rfl
    simp [sendChunksGo, hdev, chunkEvents, ih (idx + 1) resp]

theorem chunkDatas_events (ins total : Nat) :
    ∀ (cs : List (List Nat)) (idx : Nat), chunkDatas (chunkEvents ins total idx cs) = cs := by
  intro cs
  induction cs with
  | nil => intro idx; simp [chunkEvents, chunkDatas]
  | cons c rest ih => intro idx; simp [chunkEvents, chunkDatas] at ih ⊢; exact ih (idx + 1)

theorem chunkDatas_append (t1 t2 : Trace) :
    chunkDatas (t1 ++ t2) = chunkDatas t1 ++ chunkDatas t2 := by
  simp [chunkDatas]

theorem chunkDatas_addr : chunkDatas [Event.addrRequested] = [] := rfl

/-! ## C7 -/

/-- C7: `signTransferCrossChainTx` with recipient chain id equal to the sender
chain id fails with the semantic `TypeError` before any field encoding and
before any packet is dispatched (the trace is empty), leaving the params
record untouched. -/
theorem crossChainSameChainRejected (dev : Device) (pathBytes : List Nat) (now : Nat)
    (params : TransferCrossChainTxParams)
    (h : params.chainId = params.recipient_chainId) :
    signTransferCrossChainTx dev pathBytes now params
      = ((.error "Recipient chainId is same as sender\x27s in a cross-chain transfer", []),
         params) := by
  simp [signTransferCrossChainTx, h]

/-- C7 witness: sender chainId 0 with recipient chain 0 is rejected with an
empty trace. -/
theorem crossChainSameChainRejectedWitness :
    signTransferCrossChainTx devEx [0] 0 paramsSameChain
      = ((.error "Recipient chainId is same as sender\x27s in a cross-chain transfer", []),
         paramsSameChain) :=
  crossChainSameChainRejected devEx [0] 0 paramsSameChain (by decide)

/-! ## C6 -/

/-- C6 counterexample: `signTransferTx` mutates the caller-supplied params
record — with `recipient_chainId = 7` before the call, the record differs
after the call (the field is overwritten with 0). -/
theorem paramsMutationCounterexample :
    (signTransferTx devEx [0] 0 paramsEx).2 ≠ paramsEx := by
  decide

/-- C6 (amended): `signTransferCrossChainTx` leaves the caller-supplied params
record unchanged; `signTransferTx` and `signTransferCreateTx` overwrite its
`recipient_chainId` field with 0 and leave every other field unchanged. -/
theorem paramsMutationExact (dev : Device) (pathBytes : List Nat) (now : Nat)
    (params : TransferCrossChainTxParams) :
    (signTransferCrossChainTx dev pathBytes now params).2 = params
    ∧ (signTransferTx dev pathBytes now params).2
        = { params with recipient_chainId := 0 }
    ∧ (signTransferCreateTx dev pathBytes now params).2
        = { params with recipient_chainId := 0 } := by
  refine ⟨?_, rfl, rfl⟩
  simp only [signTransferCrossChainTx]
  split <;> rfl

/-! ## C10 -/

/-- C10: `signHash` hex-decodes a string input exactly when its JS length is
64, base64-decodes it otherwise, and uses byte inputs unchanged; in each case
the call behaves identically to a call on the decoded bytes. -/
theorem signHashStringDecoding (dev : Device) (pathBytes : List Nat) (s : String)
    (b : List Nat) :
    (jsStrLen s = 64 →
        rawHashOf (.str s) = hexDecodeJs s
        ∧ signHash dev pathBytes (.str s) = signHash dev pathBytes (.bytes (hexDecodeJs s)))
    ∧ (jsStrLen s ≠ 64 →
        rawHashOf (.str s) = base64DecodeJs s
        ∧ signHash dev pathBytes (.str s) = signHash dev pathBytes (.bytes (base64DecodeJs s)))
    ∧ rawHashOf (.bytes b) = b := by
  refine ⟨fun h64 => ⟨by simp [rawHashOf, h64], ?_⟩,
          fun h64 => ⟨by simp [rawHashOf, h64], ?_⟩, rfl⟩
  · simp only [signHash, rawHashOf, if_pos h64]
  · simp only [signHash, rawHashOf, if_neg h64]

/-- C10 witness: a concrete 64-character string is hex-decoded. -/
theorem signHashStringDecodingWitness :
    rawHashOf (.str hash64Ex) = hexDecodeJs hash64Ex :=
  ((signHashStringDecoding devEx [0] hash64Ex []).1 (by decide)).1

/-! ## C8 -/

theorem signSendAllChunks_head (dev : Device) (ins : Nat) (c : List Nat)
    (rest : List (List Nat)) :
    ∃ tr, (signSendAllChunks dev ins (c :: rest)).2
        = Event.chunkSent ins 1 (c :: rest).length c :: tr := by
  simp only [signSendAllChunks, sendChunksGo]
  cases dev.sendChunk ins 1 (c :: rest).length c with
  | error e => exact ⟨[], rfl⟩
  | ok r => exact ⟨_, rfl⟩

/-- C8: `signHash` throws the 32-byte precondition error with an empty packet
trace exactly when the decoded input is not 32 bytes; on a 32-byte decoded
input the chunked transfer proceeds (the first packet, carrying the path
descriptor with index 1, is dispatched). -/
theorem signHashThirtyTwoByteGate (dev : Device) (pathBytes : List Nat) (h : HashInput) :
    ((signHash dev pathBytes h).2 = [] ↔ (rawHashOf h).length ≠ 32)
    ∧ ((rawHashOf h).length ≠ 32 →
        signHash dev pathBytes h = (.error "Hash is not 32 bytes", []))
    ∧ ((rawHashOf h).length = 32 → ∃ tr,
        (signHash dev pathBytes h).2
          = Event.chunkSent INS_SIGN_HASH 1 (prepareChunks pathBytes (rawHashOf h)).length
              pathBytes :: tr) := by
  by_cases h32 : (rawHashOf h).length = 32
  · have hexp : (signHash dev pathBytes h).2
        = (signSendAllChunks dev INS_SIGN_HASH (prepareChunks pathBytes (rawHashOf h))).2 := by
      simp [signHash, h32]
    obtain ⟨tr, htr⟩ :=
      signSendAllChunks_head dev INS_SIGN_HASH pathBytes (chunkList CHUNK_SIZE (rawHashOf h))
    refine ⟨⟨fun hemp => ?_, fun hne => absurd h32 hne⟩,
            fun hne => absurd h32 hne, fun _ => ⟨tr, ?_⟩⟩
    · rw [hexp] at hemp
      rw [show (signSendAllChunks dev INS_SIGN_HASH (prepareChunks pathBytes (rawHashOf h))).2
            = Event.chunkSent INS_SIGN_HASH 1
                (prepareChunks pathBytes (rawHashOf h)).length pathBytes :: tr from htr] at hemp
      simp at hemp
    · rw [hexp]
      exact htr
  · refine ⟨⟨fun _ => h32, fun _ => ?_⟩, fun _ => ?_, fun he => absurd he h32⟩
    · simp [signHash, h32]
    · simp [signHash, h32]

/-- C8 witness: a 64-hex-character string decodes to 32 bytes, so the first
packet is dispatched rather than a precondition error being thrown. -/
theorem signHashThirtyTwoByteGateWitness :
    (signHash devEx [0] (.str hash64Ex)).2 ≠ [] := fun hemp =>
  ((signHashThirtyTwoByteGate devEx [0] (.str hash64Ex)).1.mp hemp) (by decide)

/-! ## C9 -/

/-- C9: for every signing operation the transport is driven strictly
sequentially — the trace is exactly the 1-based gapless index sequence over a
prefix of the chunk list, every call carries the total chunk count, a
successful run covers all `N` chunks with the returned value being the final
(`N`-th) chunk response, an error at chunk `k + 1` ends the trace there, and
`sign` / `signHash` / `signTxInternal` all drive their chunks through this
very loop. -/
theorem chunkDispatchProtocol (dev : Device) (ins : Nat) (chunks : List (List Nat))
    (hne : chunks ≠ []) :
    ((signSendAllChunks dev ins chunks).2
        = chunkEvents ins chunks.length 1
            (chunks.take (signSendAllChunks dev ins chunks).2.length)
      ∧ 1 ≤ (signSendAllChunks dev ins chunks).2.length
      ∧ (signSendAllChunks dev ins chunks).2.length ≤ chunks.length)
    ∧ (∀ r, (signSendAllChunks dev ins chunks).1 = .ok r →
        (signSendAllChunks dev ins chunks).2.length = chunks.length
        ∧ dev.sendChunk ins chunks.length chunks.length (chunks.getLast hne) = .ok r)
    ∧ (∀ e, (signSendAllChunks dev ins chunks).1 = .error e →
        ∃ k, k < chunks.length
          ∧ (signSendAllChunks dev ins chunks).2.length = k + 1
          ∧ dev.sendChunk ins (1 + k) chunks.length (chunks.getD k []) = .error e)
    ∧ (∀ pathBytes blob,
        sign dev pathBytes blob
          = ((signSendAllChunks dev INS_SIGN (prepareChunks pathBytes blob)).1.map
               (fun sig => { signature := sig }),
             (signSendAllChunks dev INS_SIGN (prepareChunks pathBytes blob)).2))
    ∧ (∀ pathBytes hh, (rawHashOf hh).length = 32 →
        signHash dev pathBytes hh
          = ((signSendAllChunks dev INS_SIGN_HASH
                (prepareChunks pathBytes (rawHashOf hh))).1.map
               (fun sig => { signature := sig }),
             (signSendAllChunks dev INS_SIGN_HASH
                (prepareChunks pathBytes (rawHashOf hh))).2))
    ∧ (∀ pathBytes now params ty, checkTransferTxParamsSanity params = .ok () →
        ∃ tail, (signTxInternal dev pathBytes now params ty).2
            = (signSendAllChunks dev INS_SIGN_TRANSFER_TX
                (prepareChunks pathBytes (payloadOf now params ty))).2 ++ tail
          ∧ (tail = [] ∨ tail = [Event.addrRequested])) := by
  obtain ⟨t1, t2, t3⟩ := sendChunksGo_trace dev ins chunks.length chunks 1 []
  refine ⟨⟨t1, t3 hne, t2⟩, fun r hr => ?_, fun e he => ?_, fun pathBytes blob => rfl,
          fun pathBytes hh h32 => ?_, fun pathBytes now params ty hok => ?_⟩
  · obtain ⟨g1, _, g3⟩ := sendChunksGo_ok dev ins chunks.length chunks 1 [] r hr
    refine ⟨g1, ?_⟩
    have harith : 1 + chunks.length - 1 = chunks.length := by omega
    have := g3 hne
    rwa [harith] at this
  · obtain ⟨k, hk1, hk2, hk3⟩ := sendChunksGo_err dev ins chunks.length chunks 1 [] e he
    exact ⟨k, hk1, hk2, hk3⟩
  · simp [signHash, h32]
  · simp only [signTxInternal, hok]
    cases hp : (signSendAllChunks dev INS_SIGN_TRANSFER_TX
        (prepareChunks pathBytes (payloadOf now params ty))).1 with
    | error e => exact ⟨[], by simp [hp], Or.inl rfl⟩
    | ok sig =>
      cases ha : dev.getAddress with
      | error e => exact ⟨[.addrRequested], by simp [hp, ha], Or.inr rfl⟩
      | ok pk => exact ⟨[.addrRequested], by simp [hp, ha], Or.inr rfl⟩

/-- C9 witness: with a two-chunk list and an accepting device, the trace is the
index sequence 1, 2 with total 2. -/
theorem chunkDispatchProtocolWitness :
    (signSendAllChunks devEx 0x22 [[5], [6]]).2
      = chunkEvents 0x22 ([[5], [6]] : List (List Nat)).length 1
          (([[5], [6]] : List (List Nat)).take
            (signSendAllChunks devEx 0x22 [[5], [6]]).2.length) :=
  (chunkDispatchProtocol devEx 0x22 [[5], [6]] (by decide)).1.1

/-! ## C3 -/

/-- C3: the encoded payload is the 1-byte type tag (0 transfer, 1 create, 2
cross-chain) followed by the length-prefixed text fields in the fixed order
recipient, recipient-chain-id (stringified, literally `"0"` for the
non-cross-chain entry points), network, amount, namespace, module, gasPrice,
gasLimit, creationTime, chainId, nonce, ttl; and for a valid request that is
exactly what is chunked and dispatched to the device. -/
theorem payloadFieldOrder (resp : List Nat) (addr : List Nat × String)
    (pathBytes : List Nat) (now : Nat) (params : TransferCrossChainTxParams) :
    (payloadOf now { params with recipient_chainId := 0 } TRANSFER
        = [0] ++ textPayload (stripK params.recipient) ++ textPayload "0"
          ++ textPayload params.network ++ textPayload (convertDecimal params.amount)
          ++ textPayload (params.nspace.getD "") ++ textPayload (params.module.getD "")
          ++ textPayload (params.gasPrice.getD "1.0e-6")
          ++ textPayload (params.gasLimit.getD "2300")
          ++ textPayload (Nat.repr (params.creationTime.getD now))
          ++ textPayload (Nat.repr params.chainId)
          ++ textPayload (params.nonce.getD "")
          ++ textPayload (params.ttl.getD "600"))
    ∧ (payloadOf now { params with recipient_chainId := 0 } TRANSFER_CREATE
        = [1] ++ textPayload (stripK params.recipient) ++ textPayload "0"
          ++ textPayload params.network ++ textPayload (convertDecimal params.amount)
          ++ textPayload (params.nspace.getD "") ++ textPayload (params.module.getD "")
          ++ textPayload (params.gasPrice.getD "1.0e-6")
          ++ textPayload (params.gasLimit.getD "2300")
          ++ textPayload (Nat.repr (params.creationTime.getD now))
          ++ textPayload (Nat.repr params.chainId)
          ++ textPayload (params.nonce.getD "")
          ++ textPayload (params.ttl.getD "600"))
    ∧ (payloadOf now params TRANSFER_CROSS_CHAIN
        = [2] ++ textPayload (stripK params.recipient)
          ++ textPayload (Nat.repr params.recipient_chainId)
          ++ textPayload params.network ++ textPayload (convertDecimal params.amount)
          ++ textPayload (params.nspace.getD "") ++ textPayload (params.module.getD "")
          ++ textPayload (params.gasPrice.getD "1.0e-6")
          ++ textPayload (params.gasLimit.getD "2300")
          ++ textPayload (Nat.repr (params.creationTime.getD now))
          ++ textPayload (Nat.repr params.chainId)
          ++ textPayload (params.nonce.getD "")
          ++ textPayload (params.ttl.getD "600"))
    ∧ (checkTransferTxParamsSanity { params with recipient_chainId := 0 } = .ok () →
        chunkDatas (signTransferTx (devAccept resp addr) pathBytes now params).1.2
          = prepareChunks pathBytes
              (payloadOf now { params with recipient_chainId := 0 } TRANSFER))
    ∧ (params.chainId ≠ params.recipient_chainId →
        checkTransferTxParamsSanity params = .ok () →
        chunkDatas (signTransferCrossChainTx (devAccept resp addr) pathBytes now params).1.2
          = prepareChunks pathBytes (payloadOf now params TRANSFER_CROSS_CHAIN)) := by
  have hr0 : Nat.repr 0 = "0" := by decide
  have hm0 : (0 : Nat) % 256 = 0 := by decide
  have hm1 : (1 : Nat) % 256 = 1 := by decide
  have hm2 : (2 : Nat) % 256 = 2 := by decide
  refine ⟨?_, ?_, ?_, fun hok => ?_, fun hcc hok => ?_⟩
  · simp only [payloadOf, TRANSFER, hr0, hm0]
  · simp only [payloadOf, TRANSFER_CREATE, hr0, hm1]
  · simp only [payloadOf, TRANSFER_CROSS_CHAIN, hr0, hm2]
  · simp only [signTransferTx, signTxInternal, hok, signSendAllChunks]
    rw [sendChunksGo_accept resp addr INS_SIGN_TRANSFER_TX
      (prepareChunks pathBytes
        (payloadOf now { params with recipient_chainId := 0 } TRANSFER)).length
      (prepareChunks pathBytes
        (payloadOf now { params with recipient_chainId := 0 } TRANSFER)) 1 []]
    simp [devAccept, prepareChunks, chunkDatas_append, chunkDatas_events, chunkDatas_addr]
  · have hif : signTransferCrossChainTx (devAccept resp addr) pathBytes now params
        = (signTxInternal (devAccept resp addr) pathBytes now params TRANSFER_CROSS_CHAIN,
           params) := by
      unfold signTransferCrossChainTx
      rw [if_neg hcc]
    rw [hif]
    simp only [signTxInternal, hok, signSendAllChunks]
    rw [sendChunksGo_accept resp addr INS_SIGN_TRANSFER_TX
      (prepareChunks pathBytes (payloadOf now params TRANSFER_CROSS_CHAIN)).length
      (prepareChunks pathBytes (payloadOf now params TRANSFER_CROSS_CHAIN)) 1 []]
    simp [devAccept, prepareChunks, chunkDatas_append, chunkDatas_events, chunkDatas_addr]

/-- C3 witness: the concrete example request is dispatched as the chunks of
exactly the tagged, ordered, length-prefixed payload. -/
theorem payloadFieldOrderWitness :
    chunkDatas (signTransferTx (devAccept [9, 9] (List.replicate 32 0xab, "k:pubkey"))
        [0] 0 paramsEx).1.2
      = prepareChunks [0] (payloadOf 0 { paramsEx with recipient_chainId := 0 } TRANSFER) :=
  (payloadFieldOrder [9, 9] (List.replicate 32 0xab, "k:pubkey") [0] 0 paramsEx).2.2.2.1
    (by decide)

/-! ## C2 -/

theorem utf8Char_ascii (c : Char) (h : isAscii c = true) : utf8Char c = [c.toNat] := by
  have hc : c.toNat < 0x80 := by simpa [isAscii] using h
  simp [utf8Char, hc]

theorem utf16Units_ascii (c : Char) (h : isAscii c = true) : utf16Units c = 1 := by
  have hc : c.toNat < 0x80 := by simpa [isAscii] using h
  have : c.toNat < 0x10000 := by omega
  simp [utf16Units, this]

theorem sum_utf16Units_ascii :
    ∀ (l : List Char), l.all isAscii = true → (l.map utf16Units).sum = l.length := by
  intro l
  induction l with
  | nil => simp
  | cons c rest ih =>
    intro h
    simp only [List.all_cons, Bool.and_eq_true] at h
    simp [utf16Units_ascii c h.1, ih h.2]
    omega

theorem utf8Encode_ascii :
    ∀ (l : List Char), l.all isAscii = true → utf8Encode l = l.map Char.toNat := by
  intro l
  induction l with
  | nil => simp [utf8Encode]
  | cons c rest ih =>
    intro h
    simp only [List.all_cons, Bool.and_eq_true] at h
    have hrest := ih h.2
    show utf8Char c ++ utf8Encode rest = List.map Char.toNat (c :: rest)
    rw [utf8Char_ascii c h.1, hrest]
    rfl

theorem bufWriteGo_ascii :
    ∀ (l : List Char) (sp : Nat), l.all isAscii = true → l.length ≤ sp →
      bufWriteGo sp l = l.map Char.toNat := by
  intro l
  induction l with
  | nil => intro sp _ _; simp [bufWriteGo]
  | cons c rest ih =>
    intro sp h hsp
    simp only [List.all_cons, Bool.and_eq_true] at h
    simp only [List.length_cons] at hsp
    have hone : (utf8Char c).length = 1 := by rw [utf8Char_ascii c h.1]; rfl
    simp only [bufWriteGo, hone]
    rw [if_pos (by omega), utf8Char_ascii c h.1,
      ih (sp - 1) h.2 (by omega)]
    rfl

/-- C2 counterexample: for the one-character text U+00E9 the encoder emits a
length byte of 1 (the UTF-16 length) and no body byte (the 2-byte UTF-8
sequence does not fit the 1-byte buffer space), instead of the claimed byte
length 2 followed by the UTF-8 bytes. -/
theorem textPayloadByteLengthCounterexample :
    textPayload eAcute ≠ (utf8Encode eAcute.data).length :: utf8Encode eAcute.data := by
  decide

/-- C2 (amended): for every text consisting solely of ASCII characters whose
length is at most 255, `textPayload` produces exactly one length byte equal to
the byte length followed by the raw UTF-8 bytes of the text. -/
theorem textPayloadLengthPrefixed (txt : String) (hascii : txt.data.all isAscii = true)
    (hlen : jsStrLen txt ≤ 255) :
    textPayload txt = (utf8Encode txt.data).length :: utf8Encode txt.data := by
  have hjs : jsStrLen txt = txt.data.length := sum_utf16Units_ascii txt.data hascii
  have henc : utf8Encode txt.data = txt.data.map Char.toNat := utf8Encode_ascii txt.data hascii
  have hw : bufWriteGo (jsStrLen txt) txt.data = txt.data.map Char.toNat := by
    rw [hjs]
    exact bufWriteGo_ascii txt.data txt.data.length hascii le_rfl
  have hmod : jsStrLen txt % 256 = txt.data.length := by omega
  show (jsStrLen txt % 256)
      :: (bufWriteGo (jsStrLen txt) txt.data
          ++ List.replicate (jsStrLen txt - (bufWriteGo (jsStrLen txt) txt.data).length) 0)
      = (utf8Encode txt.data).length :: utf8Encode txt.data
  rw [hw, hmod, hjs, henc]
  simp

/-- C2 witness: a concrete ASCII text is encoded as its byte length followed
by its bytes. -/
theorem textPayloadLengthPrefixedWitness :
    textPayload "abc" = (utf8Encode "abc".data).length :: utf8Encode "abc".data :=
  textPayloadLengthPrefixed "abc" (by decide) (by decide)

/-! ## C1 -/

set_option maxRecDepth 100000 in
/-- C1 fails on the code: for the request `paramsEx` (amount `"5"`, gasPrice,
gasLimit, ttl and nonce omitted) the binary payload encodes the normalized
amount `"5.0"` and the defaults `"1.0e-6"`, `"2300"`, `"600"`, `""`, while the
command document returned to the caller is built from the RAW parameters: it
contains the text `"gasPrice":undefined` (likewise for ttl), the un-normalized
amount `5`, and none of the defaulted values. -/
theorem transferJsonRawParamsBug :
    (signTransferTx devEx [0] 0 paramsEx).1.1
      = .ok { signature := [9, 9], cmd := docEx, hash := deriveHash docEx }
    ∧ payloadOf 0 { paramsEx with recipient_chainId := 0 } TRANSFER
        = [0] ++ textPayload recipientEx ++ textPayload "0" ++ textPayload "testnet"
          ++ textPayload "5.0" ++ textPayload "" ++ textPayload "" ++ textPayload "1.0e-6"
          ++ textPayload "2300" ++ textPayload "1234" ++ textPayload "0" ++ textPayload ""
          ++ textPayload "600"
    ∧ containsSeq ",\"gasPrice\":undefined".data docEx.data = true
    ∧ containsSeq ",\"ttl\":undefined".data docEx.data = true
    ∧ containsSeq ",\"gasLimit\":undefined".data docEx.data = true
    ∧ containsSeq "1.0e-6".data docEx.data = false
    ∧ containsSeq "2300".data docEx.data = false
    ∧ containsSeq "600".data docEx.data = false
    ∧ containsSeq " 5)".data docEx.data = true
    ∧ containsSeq "5.0".data docEx.data = false := by
  refine ⟨by decide, by decide, by decide, by decide, by decide, by decide, by decide,
    by decide, by decide, by decide⟩

/-! ## C4 -/

theorem utf16Units_pos (c : Char) : 1 ≤ utf16Units c := by
  unfold utf16Units
  split <;> omega

theorem length_le_sum_utf16Units : ∀ (l : List Char), l.length ≤ (l.map utf16Units).sum := by
  intro l
  induction l with
  | nil => simp
  | cons c rest ih =>
    have := utf16Units_pos c
    simp only [List.map_cons, List.sum_cons, List.length_cons]
    omega

theorem isHexChar_isAscii (c : Char) (h : isHexChar c = true) : isAscii c = true := by
  simp only [isHexChar, Bool.or_eq_true, Bool.and_eq_true, decide_eq_true_eq] at h
  simp only [isAscii, decide_eq_true_eq]
  omega

theorem all_hex_all_ascii (l : List Char) (h : l.all isHexChar = true) :
    l.all isAscii = true := by
  rw [List.all_eq_true] at h ⊢
  exact fun x hx => isHexChar_isAscii x (h x hx)

theorem hasHexRun64_length : ∀ (l : List Char), hasHexRun64 l = true → 64 ≤ l.length := by
  intro l
  induction l with
  | nil => simp [hasHexRun64]
  | cons c rest ih =>
    intro h
    simp only [hasHexRun64, Bool.or_eq_true] at h
    rcases h with h | h
    · simp only [hexRunStart, Bool.and_eq_true, decide_eq_true_eq] at h
      have hle : ((c :: rest).take 64).length ≤ (c :: rest).length := by
        simp [List.length_take]
      omega
    · have := ih h
      simp only [List.length_cons]
      omega

theorem hasHexRun64_exact (l : List Char) (h : hasHexRun64 l = true) (hlen : l.length = 64) :
    l.all isHexChar = true := by
  cases l with
  | nil => simp at hlen
  | cons c rest =>
    simp only [hasHexRun64, Bool.or_eq_true] at h
    rcases h with h | h
    · simp only [hexRunStart, Bool.and_eq_true, decide_eq_true_eq] at h
      have htake : (c :: rest).take 64 = c :: rest := List.take_of_length_le (by omega)
      rw [htake] at h
      exact h.2
    · have := hasHexRun64_length rest h
      simp only [List.length_cons] at hlen
      omega

theorem hasHexRun64_of_exact (l : List Char) (hlen : l.length = 64)
    (hhex : l.all isHexChar = true) : hasHexRun64 l = true := by
  cases l with
  | nil => simp at hlen
  | cons c rest =>
    simp only [hasHexRun64, Bool.or_eq_true]
    left
    have htake : (c :: rest).take 64 = c :: rest := List.take_of_length_le (by omega)
    simp only [hexRunStart, htake, Bool.and_eq_true, decide_eq_true_eq]
    exact ⟨hlen, hhex⟩

/-- Full characterization of the validator: success is exactly the conjunction
of the negations of all its failure conditions, in source order. -/
theorem sanity_ok_iff (params : TransferCrossChainTxParams) :
    checkTransferTxParamsSanity params = .ok ()
      ↔ (hasHexRun64 (stripK params.recipient).data = true
          ∧ ¬(params.nspace.getD "" ≠ "" ∧ params.module.getD "" = "")
          ∧ jsIsNaNStr params.amount = false
          ∧ jsIsNaNOpt params.gasPrice = false
          ∧ jsIsNaNOpt params.gasLimit = false
          ∧ jsIsNaNOpt params.ttl = false
          ∧ jsStrLen (stripK params.recipient) = 64
          ∧ jsStrLen (params.nspace.getD "") ≤ 16
          ∧ jsStrLen (params.module.getD "") ≤ 32
          ∧ jsStrLen (jsNumFalsyStr params.recipient_chainId) ≤ 2
          ∧ jsStrLen params.network ≤ 20
          ∧ jsStrLen params.amount ≤ 32
          ∧ jsStrLen (params.gasPrice.getD "") ≤ 20
          ∧ jsStrLen (params.gasLimit.getD "") ≤ 10
          ∧ jsStrLen (jsOptNumFalsyStr params.creationTime) ≤ 12
          ∧ jsStrLen (jsNumFalsyStr params.chainId) ≤ 2
          ∧ jsStrLen (params.nonce.getD "") ≤ 32
          ∧ jsStrLen (params.ttl.getD "") ≤ 20) := by
  constructor
  · intro h
    unfold checkTransferTxParamsSanity lengthChecks at h
    by_cases h1 : ¬(hasHexRun64 (stripK params.recipient).data = true)
    · rw [if_pos h1] at h
      exact Except.noConfusion h
    rw [if_neg h1] at h
    by_cases h2 : (decide (params.nspace.getD "" ≠ "") && decide (params.module.getD "" = "")) = true
    · rw [if_pos h2] at h
      exact Except.noConfusion h
    rw [if_neg h2] at h
    by_cases h3 : jsIsNaNStr params.amount = true
    · rw [if_pos h3] at h
      exact Except.noConfusion h
    rw [if_neg h3] at h
    by_cases h4 : jsIsNaNOpt params.gasPrice = true
    · rw [if_pos h4] at h
      exact Except.noConfusion h
    rw [if_neg h4] at h
    by_cases h5 : jsIsNaNOpt params.gasLimit = true
    · rw [if_pos h5] at h
      exact Except.noConfusion h
    rw [if_neg h5] at h
    by_cases h6 : jsIsNaNOpt params.ttl = true
    · rw [if_pos h6] at h
      exact Except.noConfusion h
    rw [if_neg h6] at h
    by_cases h7 : jsStrLen (stripK params.recipient) ≠ 64
    · rw [if_pos h7] at h
      exact Except.noConfusion h
    rw [if_neg h7] at h
    by_cases h8 : jsStrLen (params.nspace.getD "") > 16
    · rw [if_pos h8] at h
      exact Except.noConfusion h
    rw [if_neg h8] at h
    by_cases h9 : jsStrLen (params.module.getD "") > 32
    · rw [if_pos h9] at h
      exact Except.noConfusion h
    rw [if_neg h9] at h
    by_cases h10 : jsStrLen (jsNumFalsyStr params.recipient_chainId) > 2
    · rw [if_pos h10] at h
      exact Except.noConfusion h
    rw [if_neg h10] at h
    by_cases h11 : jsStrLen params.network > 20
    · rw [if_pos h11] at h
      exact Except.noConfusion h
    rw [if_neg h11] at h
    by_cases h12 : jsStrLen params.amount > 32
    · rw [if_pos h12] at h
      exact Except.noConfusion h
    rw [if_neg h12] at h
    by_cases h13 : jsStrLen (params.gasPrice.getD "") > 20
    · rw [if_pos h13] at h
      exact Except.noConfusion h
    rw [if_neg h13] at h
    by_cases h14 : jsStrLen (params.gasLimit.getD "") > 10
    · rw [if_pos h14] at h
      exact Except.noConfusion h
    rw [if_neg h14] at h
    by_cases h15 : jsStrLen (jsOptNumFalsyStr params.creationTime) > 12
    · rw [if_pos h15] at h
      exact Except.noConfusion h
    rw [if_neg h15] at h
    by_cases h16 : jsStrLen (jsNumFalsyStr params.chainId) > 2
    · rw [if_pos h16] at h
      exact Except.noConfusion h
    rw [if_neg h16] at h
    by_cases h17 : jsStrLen (params.nonce.getD "") > 32
    · rw [if_pos h17] at h
      exact Except.noConfusion h
    rw [if_neg h17] at h
    by_cases h18 : jsStrLen (params.ttl.getD "") > 20
    · rw [if_pos h18] at h
      exact Except.noConfusion h
    rw [if_neg h18] at h
    rw [Bool.and_eq_true, decide_eq_true_eq, decide_eq_true_eq] at h2
    simp only [Bool.not_eq_true] at h3 h4 h5 h6
    simp only [ne_eq, not_not] at h1 h7
    simp only [not_lt] at h8 h9 h10 h11 h12 h13 h14 h15 h16 h17 h18
    exact ⟨h1, h2, h3, h4, h5, h6, h7, h8, h9, h10, h11, h12, h13, h14, h15, h16, h17, h18⟩
  · rintro ⟨hrun, hnm, hnan1, hnan2, hnan3, hnan4, hlen, hl1, hl2, hl3, hl4, hl5, hl6,
      hl7, hl8, hl9, hl10, hl11⟩
    unfold checkTransferTxParamsSanity lengthChecks
    rw [if_neg (not_not_intro hrun),
      if_neg (show ¬((decide (params.nspace.getD "" ≠ "")
          && decide (params.module.getD "" = "")) = true) from by
        rw [Bool.and_eq_true, decide_eq_true_eq, decide_eq_true_eq]; exact hnm),
      if_neg (show ¬(jsIsNaNStr params.amount = true) from by simp [hnan1]),
      if_neg (show ¬(jsIsNaNOpt params.gasPrice = true) from by simp [hnan2]),
      if_neg (show ¬(jsIsNaNOpt params.gasLimit = true) from by simp [hnan3]),
      if_neg (show ¬(jsIsNaNOpt params.ttl = true) from by simp [hnan4]),
      if_neg (show ¬(jsStrLen (stripK params.recipient) ≠ 64) from fun hne => hne hlen),
      if_neg (show ¬(jsStrLen (params.nspace.getD "") > 16) from by omega),
      if_neg (show ¬(jsStrLen (params.module.getD "") > 32) from by omega),
      if_neg (show ¬(jsStrLen (jsNumFalsyStr params.recipient_chainId) > 2) from by omega),
      if_neg (show ¬(jsStrLen params.network > 20) from by omega),
      if_neg (show ¬(jsStrLen params.amount > 32) from by omega),
      if_neg (show ¬(jsStrLen (params.gasPrice.getD "") > 20) from by omega),
      if_neg (show ¬(jsStrLen (params.gasLimit.getD "") > 10) from by omega),
      if_neg (show ¬(jsStrLen (jsOptNumFalsyStr params.creationTime) > 12) from by omega),
      if_neg (show ¬(jsStrLen (jsNumFalsyStr params.chainId) > 2) from by omega),
      if_neg (show ¬(jsStrLen (params.nonce.getD "") > 32) from by omega),
      if_neg (show ¬(jsStrLen (params.ttl.getD "") > 20) from by omega)]

/-- C4: given that the non-recipient checks pass, the validator accepts
exactly when the recipient, after stripping an optional `k:` prefix, is a
string of JS length 64 consisting solely of hexadecimal characters. -/
theorem recipientValidationIff (params : TransferCrossChainTxParams)
    (hother : otherChecksOk params = true) :
    checkTransferTxParamsSanity params = .ok ()
      ↔ (jsStrLen (stripK params.recipient) = 64
          ∧ (stripK params.recipient).data.all isHexChar = true) := by
  simp only [otherChecksOk, Bool.and_eq_true, Bool.or_eq_true, Bool.not_eq_true',
    decide_eq_true_eq] at hother
  obtain ⟨⟨⟨⟨⟨⟨⟨⟨⟨⟨⟨⟨⟨⟨⟨ho1, ho2⟩, ho3⟩, ho4⟩, ho5⟩, ho6⟩, ho7⟩, ho8⟩, ho9⟩, ho10⟩,
    ho11⟩, ho12⟩, ho13⟩, ho14⟩, ho15⟩, ho16⟩ := hother
  rw [sanity_ok_iff]
  constructor
  · rintro ⟨hrun, -, -, -, -, -, hlen, -⟩
    refine ⟨hlen, ?_⟩
    have h1 := hasHexRun64_length _ hrun
    have h2 := length_le_sum_utf16Units (stripK params.recipient).data
    have hcl : (stripK params.recipient).data.length = 64 := by
      unfold jsStrLen at hlen
      omega
    exact hasHexRun64_exact _ hrun hcl
  · rintro ⟨hlen, hhex⟩
    have hascii := all_hex_all_ascii _ hhex
    have hcl : (stripK params.recipient).data.length = 64 := by
      have := sum_utf16Units_ascii (stripK params.recipient).data hascii
      unfold jsStrLen at hlen
      omega
    refine ⟨hasHexRun64_of_exact _ hcl hhex, ?_, ho2, ho3, ho4, ho5, hlen, ho6, ho7, ho8,
      ho9, ho10, ho11, ho12, ho13, ho14, ho15, ho16⟩
    rintro ⟨hns, hmod⟩
    rcases ho1 with h | h
    · exact hns h
    · exact h hmod

/-- C4 witness: a concrete 64-hex recipient passes the validator and a
65-character one is rejected. -/
theorem recipientValidationIffWitness :
    checkTransferTxParamsSanity paramsSameChain = .ok ()
    ∧ checkTransferTxParamsSanity
        { paramsSameChain with recipient := String.mk (List.replicate 65 'a') } ≠ .ok () := by
  constructor
  · exact (recipientValidationIff paramsSameChain (by decide)).mpr (by decide)
  · intro hok
    have := (recipientValidationIff
      { paramsSameChain with recipient := String.mk (List.replicate 65 'a') }
      (by decide)).mp hok
    exact absurd this (by decide)

/-! ## C5 -/

theorem blakeCompress_length (h m : List Nat) (t : Nat) (last : Bool) :
    (blakeCompress h m t last).length = 8 := by
  simp [blakeCompress]

theorem blakeGo_length : ∀ (blocks : List (List Nat)) (h : List Nat) (c : Nat),
    h.length = 8 → (blakeGo h c blocks).length = 8 := by
  intro blocks
  induction blocks with
  | nil => intro h c hh; simpa [blakeGo] using hh
  | cons b tail ih =>
    intro h c hh
    cases tail with
    | nil => simp [blakeGo, blakeCompress_length]
    | cons b2 rest =>
      simp only [blakeGo]
      exact ih _ _ (blakeCompress_length _ _ _ _)

theorem leBytes8_length (w : Nat) : (leBytes8 w).length = 8 := by
  simp [leBytes8]

theorem flatMap_leBytes8_length :
    ∀ (l : List Nat), (l.flatMap leBytes8).length = 8 * l.length := by
  intro l
  induction l with
  | nil => simp
  | cons a t ih =>
    show (leBytes8 a ++ t.flatMap leBytes8).length = 8 * (t.length + 1)
    simp [leBytes8_length, ih]
    omega

theorem blake2b256_length (msg : List Nat) : (blake2b256 msg).length = 32 := by
  have h8 : ([Nat.xor 0x6a09e667f3bcc908 0x01010020] ++ blakeIV.drop 1).length = 8 := by
    decide
  unfold blake2b256
  have hf := blakeGo_length (if msg.isEmpty then [[]] else chunkList 128 msg)
    ([Nat.xor 0x6a09e667f3bcc908 0x01010020] ++ blakeIV.drop 1) 0 h8
  rw [flatMap_leBytes8_length, List.length_take, hf]
  decide

theorem b64Char_good (n : Nat) :
    isUrlSafeB64 (b64UrlReplace (b64Char n)) = true ∧ b64UrlReplace (b64Char n) ≠ '=' := by
  have hlt : n % 64 < 64 := Nat.mod_lt _ (by norm_num)
  have hall : ∀ i, i < 64 →
      isUrlSafeB64 (b64UrlReplace (b64Table.getD i 'A')) = true
      ∧ b64UrlReplace (b64Table.getD i 'A') ≠ '=' := by decide
  exact hall (n % 64) hlt

theorem b64_stripped (k : Nat) : ∀ (l : List Nat), l.length = 3 * k + 2 →
    (((base64Chars l).map b64UrlReplace).filter (fun c => c ≠ '=')).length = 4 * k + 3
    ∧ (((base64Chars l).map b64UrlReplace).filter (fun c => c ≠ '=')).all isUrlSafeB64
        = true := by
  induction k with
  | zero =>
    intro l hl
    cases l with
    | nil => simp only [List.length_nil] at hl; omega
    | cons a t =>
      cases t with
      | nil => simp only [List.length_cons, List.length_nil] at hl; omega
      | cons b t2 =>
        cases t2 with
        | cons c t3 => simp only [List.length_cons] at hl; omega
        | nil =>
          obtain ⟨ga1, ga2⟩ := b64Char_good (a / 4)
          obtain ⟨gb1, gb2⟩ := b64Char_good ((a % 4) * 16 + b / 16)
          obtain ⟨gc1, gc2⟩ := b64Char_good ((b % 16) * 4)
          have heq : b64UrlReplace '=' = '=' := by decide
          have hstep : ((base64Chars [a, b]).map b64UrlReplace).filter (fun ch => ch ≠ '=')
              = [b64UrlReplace (b64Char (a / 4)),
                 b64UrlReplace (b64Char ((a % 4) * 16 + b / 16)),
                 b64UrlReplace (b64Char ((b % 16) * 4))] := by
            simp [base64Chars, List.filter_cons, ga2, gb2, gc2, heq]
          rw [hstep]
          exact ⟨by simp, by simp [ga1, gb1, gc1]⟩
  | succ k ih =>
    intro l hl
    cases l with
    | nil => simp only [List.length_nil] at hl; omega
    | cons a t =>
      cases t with
      | nil => simp only [List.length_cons, List.length_nil] at hl; omega
      | cons b t2 =>
        cases t2 with
        | nil => simp only [List.length_cons, List.length_nil] at hl; omega
        | cons c t3 =>
          have ht3 : t3.length = 3 * k + 2 := by
            simp only [List.length_cons] at hl
            omega
          obtain ⟨ih1, ih2⟩ := ih t3 ht3
          obtain ⟨ga1, ga2⟩ := b64Char_good (a / 4)
          obtain ⟨gb1, gb2⟩ := b64Char_good ((a % 4) * 16 + b / 16)
          obtain ⟨gc1, gc2⟩ := b64Char_good ((b % 16) * 4 + c / 64)
          obtain ⟨gd1, gd2⟩ := b64Char_good (c % 64)
          have hstep : ((base64Chars (a :: b :: c :: t3)).map b64UrlReplace).filter
                (fun ch => ch ≠ '=')
              = b64UrlReplace (b64Char (a / 4))
                :: b64UrlReplace (b64Char ((a % 4) * 16 + b / 16))
                :: b64UrlReplace (b64Char ((b % 16) * 4 + c / 64))
                :: b64UrlReplace (b64Char (c % 64))
                :: ((base64Chars t3).map b64UrlReplace).filter (fun ch => ch ≠ '=') := by
            simp [base64Chars, List.filter_cons, ga2, gb2, gc2, gd2]
          rw [hstep]
          refine ⟨?_, ?_⟩
          · simp only [List.length_cons]
            rw [ih1]
            omega
          · simp only [List.all_cons, ga1, gb1, gc1, gd1, Bool.true_and]
            exact ih2

/-- C5: the hash identifier returned with a command document is the base64
encoding of the 256-bit BLAKE2b digest of the document bytes with `+`/`/`
mapped to `-`/`_` and `=` removed; it is always 43 characters long over the
URL-safe alphabet, and `signTxInternal` returns exactly this identifier for
the returned document. -/
theorem deriveHashUrlSafe (doc : String) :
    deriveHash doc
      = String.mk (((base64Chars (blake2b256 (utf8Encode doc.data))).map b64UrlReplace).filter
          (fun c => c ≠ '='))
    ∧ (deriveHash doc).length = 43
    ∧ (deriveHash doc).data.all isUrlSafeB64 = true
    ∧ (∀ (dev : Device) (pathBytes : List Nat) (now : Nat)
        (params : TransferCrossChainTxParams) (ty : Nat) (r : ResponseSignTransfer),
        (signTxInternal dev pathBytes now params ty).1 = .ok r → r.hash = deriveHash r.cmd) := by
  have h32 : (blake2b256 (utf8Encode doc.data)).length = 3 * 10 + 2 := by
    have := blake2b256_length (utf8Encode doc.data)
    omega
  obtain ⟨hlen, hall⟩ := b64_stripped 10 (blake2b256 (utf8Encode doc.data)) h32
  refine ⟨rfl, ?_, ?_, ?_⟩
  · show (((base64Chars (blake2b256 (utf8Encode doc.data))).map b64UrlReplace).filter
        (fun c => c ≠ '=')).length = 43
    omega
  · exact hall
  · intro dev pathBytes now params ty r hr
    unfold signTxInternal at hr
    cases hval : checkTransferTxParamsSanity params with
    | error e => rw [hval] at hr; exact Except.noConfusion hr
    | ok u =>
      rw [hval] at hr
      simp only at hr
      cases hp : (signSendAllChunks dev INS_SIGN_TRANSFER_TX
          (prepareChunks pathBytes (payloadOf now params ty))).1 with
      | error e => rw [hp] at hr; exact Except.noConfusion hr
      | ok sig =>
        rw [hp] at hr
        simp only at hr
        cases ha : dev.getAddress with
        | error e => rw [ha] at hr; exact Except.noConfusion hr
        | ok pk =>
          rw [ha] at hr
          simp only [Except.ok.injEq] at hr
          subst hr
          rfl

/-- C5 witness: the identifier of a concrete document is 43 characters. -/
theorem deriveHashUrlSafeWitness : (deriveHash "").length = 43 :=
  (deriveHashUrlSafe "").2.1

end KadenaSpec
